import Mathlib

/-!
Verification of the `time_back` activity tracker (Rust) against its
natural-language specification.  The Rust source is shallowly embedded:
durations are nanosecond counts (`Nat`, mirroring `std::time::Duration`
arithmetic on the values the program uses), the window-time map is an
association list mirroring the `HashMap<String, Duration>` entry API, and
the floating-point statistics of the historical aggregator are computed in
`ℚ` (exact arithmetic over the same formulas the code evaluates in `f64`).
-/

namespace TimeBack

/-! ## Sampler loop (src/main.rs, sampler thread closure, lines 77–155)

Constants from lines 83–86: the tick period `check_duration` is 50 ms, the
idle thresholds are `small_gap_between_input` = 5 s and
`long_gap_between_input` = 10 * 60 s.  All in nanoseconds. -/

def CHECK_DURATION : Nat := 50 * 1000000

def SMALL_GAP : Nat := 5 * 1000000000

def LONG_GAP : Nat := 600 * 1000000000

/-- The in-memory `window_time : HashMap<String, Duration>` as an
association list. -/
abbrev WindowTime := List (String × Nat)

/-- Models `window_time.entry(k).or_insert(Duration::default()) += d`
(main.rs lines 127–129): insert `0` if the key is absent, then add `d`. -/
def orInsertAdd : WindowTime → String → Nat → WindowTime
  | [], k, d => [(k, d)]
  | (k', v) :: rest, k, d =>
      if k' = k then (k', v + d) :: rest else (k', v) :: orInsertAdd rest k d

/-- Models `match get_active_window() { Ok(w) => w, Err(()) => ActiveWindow { app_name:
String::default(), .. } }` (main.rs lines 103–113): a failed query is replaced
by a default window whose `app_name` is the empty string. -/
def activeAppName : Option String → String
  | some name => name
  | none => ""

/-- The crediting decision of main.rs lines 115–126: pick
`long_gap_between_input` when the active app is in
`processes_with_longer_tracking`, else `small_gap_between_input`, and credit
iff `last_input.elapsed() <= gap_between_input`. -/
def samplerCredit (longTracking : List String) (appName : String)
    (elapsed : Nat) : Bool :=
  let gapBetweenInput :=
    if longTracking.contains appName then LONG_GAP else SMALL_GAP
  decide (elapsed ≤ gapBetweenInput)

/-- One tick's mutation of `window_time` (main.rs lines 103–131): resolve the
active-window query, evaluate the idle policy, and conditionally accumulate
`check_duration` under the active app's name. -/
def samplerTick (wt : WindowTime) (longTracking : List String)
    (query : Option String) (elapsed : Nat) : WindowTime :=
  if samplerCredit longTracking (activeAppName query) elapsed then
    orInsertAdd wt (activeAppName query) CHECK_DURATION
  else
    wt

/-- Iterated sampler steps: each tick carries the long-tracking set read from
the config that tick, the active-window query result, and the idle gap. -/
def runSampler (wt : WindowTime) :
    List (List String × Option String × Nat) → WindowTime
  | [] => wt
  | (cfg, q, e) :: rest => runSampler (samplerTick wt cfg q e) rest

theorem lookup_orInsertAdd_self (wt : WindowTime) (k : String) (d : Nat) :
    List.lookup k (orInsertAdd wt k d) = some ((List.lookup k wt).getD 0 + d) := by
  induction wt with
  | nil => simp [orInsertAdd]
  | cons kv rest ih =>
      obtain ⟨k', v⟩ := kv
      by_cases h : k' = k
      · subst h
        simp [orInsertAdd, List.lookup]
      · have hb : (k == k') = false := beq_eq_false_iff_ne.mpr (Ne.symm h)
        simp [orInsertAdd, h, List.lookup, hb, ih]

theorem lookup_orInsertAdd_ne (wt : WindowTime) (k k' : String) (d : Nat)
    (h : k' ≠ k) :
    List.lookup k' (orInsertAdd wt k d) = List.lookup k' wt := by
  have hb : (k' == k) = false := beq_eq_false_iff_ne.mpr h
  induction wt with
  | nil => simp [orInsertAdd, List.lookup, hb]
  | cons kv rest ih =>
      obtain ⟨k'', v⟩ := kv
      by_cases h2 : k'' = k
      · subst h2
        simp [orInsertAdd, List.lookup, hb]
      · simp [orInsertAdd, h2, List.lookup, ih]

theorem lookup_samplerTick_getD_mono (wt : WindowTime)
    (longTracking : List String) (q : Option String) (e : Nat) (k : String) :
    (List.lookup k wt).getD 0 ≤
      (List.lookup k (samplerTick wt longTracking q e)).getD 0 := by
  unfold samplerTick
  split
  · by_cases h : k = activeAppName q
    · subst h
      rw [lookup_orInsertAdd_self]
      simp
    · rw [lookup_orInsertAdd_ne _ _ _ _ h]
  · exact le_refl _

/-- C1: the tick is credited iff the idle gap `now - last_input` is at most
600 s when the active app is in the long-tracking set and at most 5 s
otherwise; a gap of at most 5 s is always credited, a gap above 600 s never
is, and crediting adds exactly the tick duration to the app's entry. -/
theorem sampler_credits_iff_gap_within_threshold (wt : WindowTime)
    (longTracking : List String) (appName : String) (lastInput now : Nat) :
    (samplerCredit longTracking appName (now - lastInput) =
        if longTracking.contains appName then
          decide (now - lastInput ≤ 600 * 1000000000)
        else
          decide (now - lastInput ≤ 5 * 1000000000))
    ∧ ((decide (now - lastInput ≤ 5 * 1000000000) &&
          !samplerCredit longTracking appName (now - lastInput)) = false)
    ∧ ((decide (600 * 1000000000 < now - lastInput) &&
          samplerCredit longTracking appName (now - lastInput)) = false)
    ∧ (List.lookup appName
          (samplerTick wt longTracking (some appName) (now - lastInput)) =
        if samplerCredit longTracking appName (now - lastInput) then
          some ((List.lookup appName wt).getD 0 + CHECK_DURATION)
        else
          List.lookup appName wt) := by
  refine ⟨?_, ?_, ?_, ?_⟩
  · unfold samplerCredit LONG_GAP SMALL_GAP
    split
    · simp
    · simp
  · unfold samplerCredit LONG_GAP SMALL_GAP
    split
    · simp only [Bool.and_eq_false_iff, decide_eq_false_iff_not, Bool.not_eq_false',
        decide_eq_true_eq, not_le]
      omega
    · simp only [Bool.and_eq_false_iff, decide_eq_false_iff_not, Bool.not_eq_false',
        decide_eq_true_eq, not_le]
      omega
  · unfold samplerCredit LONG_GAP SMALL_GAP
    split
    · simp only [Bool.and_eq_false_iff, decide_eq_false_iff_not, not_lt,
        decide_eq_true_eq]
      omega
    · simp only [Bool.and_eq_false_iff, decide_eq_false_iff_not, not_lt,
        decide_eq_true_eq]
      omega
  · simp only [samplerTick, activeAppName]
    split
    · exact lookup_orInsertAdd_self wt appName CHECK_DURATION
    · rfl

/-- C7: when the active-window query fails the sampler substitutes the empty
label and the tick proceeds exactly as a tick whose active app is the empty
string; if the idle policy credits the tick, the tick duration accumulates
under the empty-string key, otherwise the map is untouched. -/
theorem sampler_query_failure_empty_label (wt : WindowTime)
    (longTracking : List String) (e : Nat) :
    (samplerTick wt longTracking none e = samplerTick wt longTracking (some "") e)
    ∧ (samplerTick wt longTracking none e =
        if samplerCredit longTracking "" e then
          orInsertAdd wt "" CHECK_DURATION
        else
          wt)
    ∧ (List.lookup "" (samplerTick wt longTracking none e) =
        if samplerCredit longTracking "" e then
          some ((List.lookup "" wt).getD 0 + CHECK_DURATION)
        else
          List.lookup "" wt) := by
  refine ⟨rfl, rfl, ?_⟩
  simp only [samplerTick, activeAppName]
  split
  · exact lookup_orInsertAdd_self wt "" CHECK_DURATION
  · rfl

/-- C8: every sampler step either leaves an entry unchanged or adds the tick
duration to it (inserting zero first when absent); no step decreases or
removes an entry, so over any sequence of steps each stored value is
monotonically non-decreasing. -/
theorem window_time_monotone (wt : WindowTime) (longTracking : List String)
    (q : Option String) (e : Nat) (k : String) :
    ((List.lookup k wt).getD 0 ≤
        (List.lookup k (samplerTick wt longTracking q e)).getD 0)
    ∧ (((List.lookup k wt).isSome &&
          !(List.lookup k (samplerTick wt longTracking q e)).isSome) = false)
    ∧ (List.lookup k (samplerTick wt longTracking q e) = List.lookup k wt
        ∨ List.lookup k (samplerTick wt longTracking q e) =
            some ((List.lookup k wt).getD 0 + CHECK_DURATION))
    ∧ ∀ ticks : List (List String × Option String × Nat),
        (List.lookup k wt).getD 0 ≤ (List.lookup k (runSampler wt ticks)).getD 0 := by
  refine ⟨lookup_samplerTick_getD_mono wt longTracking q e k, ?_, ?_, ?_⟩
  · unfold samplerTick
    split
    · by_cases h : k = activeAppName q
      · subst h
        rw [lookup_orInsertAdd_self]
        simp
      · rw [lookup_orInsertAdd_ne _ _ _ _ h]
        simp
    · simp
  · unfold samplerTick
    split
    · by_cases h : k = activeAppName q
      · subst h
        exact Or.inr (lookup_orInsertAdd_self wt _ CHECK_DURATION)
      · exact Or.inl (lookup_orInsertAdd_ne _ _ _ _ h)
    · exact Or.inl rfl
  · intro ticks
    induction ticks generalizing wt with
    | nil => simp [runSampler]
    | cons t rest ih =>
        obtain ⟨cfg, tq, te⟩ := t
        calc (List.lookup k wt).getD 0
            ≤ (List.lookup k (samplerTick wt cfg tq te)).getD 0 :=
              lookup_samplerTick_getD_mono wt cfg tq te k
          _ ≤ (List.lookup k (runSampler (samplerTick wt cfg tq te) rest)).getD 0 :=
              ih _

/-! ## Historical aggregator: utils.rs (calculate_sum / calculate_avg /
calculate_median) and main.rs collect_previous_data (lines 190–260)

Durations stay nanosecond `Nat`s; `Duration::as_secs_f64()` and the `f64`
arithmetic of the statistics are computed exactly in `ℚ`. -/

/-- Computes `Duration::as_secs_f64()` of a nanosecond count, exactly. -/
def durSecs (d : Nat) : ℚ := (d : ℚ) / 1000000000

/-- Computes `v.iter().sum::<Duration>().as_secs_f64()`. -/
def sumSecs (v : List Nat) : ℚ := durSecs v.sum

/-- Models `v.sort()` on a duration vector. -/
def sortDur (v : List Nat) : List Nat := v.mergeSort (fun a b => decide (a ≤ b))

/-- Models `result.sort_unstable_by(|a, b| b.1.total_cmp(&a.1))`: sort the (label,
value) pairs so values are descending. -/
def sortDescByVal (l : List (String × ℚ)) : List (String × ℚ) :=
  l.mergeSort (fun a b => decide (b.2 ≤ a.2))

/-- The per-label median body of `calculate_median` (utils.rs lines 43–54),
applied to the already-sorted clone: even length → mean of the two central
values (guarded by `middle >= 1`), odd → the central value, empty → `0`. -/
def medianSorted (s : List Nat) : ℚ :=
  if s.length % 2 = 0 then
    if 1 ≤ s.length / 2 then
      durSecs (s.getD (s.length / 2 - 1) 0 + s.getD (s.length / 2) 0) / 2
    else 0
  else if s.isEmpty = false then
    durSecs (s.getD (s.length / 2) 0)
  else 0

/-- Per-label value computed by `calculate_median`: clone, `sort()`, then take
the median of the sorted list (utils.rs lines 38–55). -/
def medianOf (v : List Nat) : ℚ := medianSorted (sortDur v)

/-- Models `calculate_sum` (utils.rs lines 9–16). -/
def calculate_sum (data : List (String × List Nat)) : List (String × ℚ) :=
  sortDescByVal (data.map (fun kv => (kv.1, sumSecs kv.2)))

/-- Models `calculate_avg` (utils.rs lines 18–33): per label, sum divided by the
`file_count` argument. -/
def calculate_avg (data : List (String × List Nat)) (fileCount : Nat) :
    List (String × ℚ) :=
  sortDescByVal (data.map (fun kv => (kv.1, sumSecs kv.2 / (fileCount : ℚ))))

/-- Models `calculate_median` (utils.rs lines 35–60). -/
def calculate_median (data : List (String × List Nat)) : List (String × ℚ) :=
  sortDescByVal (data.map (fun kv => (kv.1, medianOf kv.2)))

/-- Index-checked variant of `medianSorted`: every vector access the Rust code
performs with `v[i]` (which panics out of bounds) is done with the `Option`
-valued `s[i]?`, so the result is `none` exactly when some access would panic. -/
def medianSortedChecked (s : List Nat) : Option ℚ :=
  if s.length % 2 = 0 then
    if 1 ≤ s.length / 2 then
      match s[s.length / 2 - 1]?, s[s.length / 2]? with
      | some a, some b => some (durSecs (a + b) / 2)
      | _, _ => none
    else some 0
  else if s.isEmpty = false then
    match s[s.length / 2]? with
    | some a => some (durSecs a)
    | none => none
  else some 0

/-- Index-checked per-label median. -/
def medianChecked (v : List Nat) : Option ℚ := medianSortedChecked (sortDur v)

/-- Index-checked `calculate_median`: `none` if any per-label access would
panic. -/
def calculate_medianChecked (data : List (String × List Nat)) :
    Option (List (String × ℚ)) :=
  (data.mapM (fun kv => (medianChecked kv.2).map (fun m => (kv.1, m)))).map
    sortDescByVal

/-! ### collect_previous_data (main.rs lines 190–260) -/

/-- One directory entry as `collect_previous_data` classifies it:
`openFail` — `File::open` failed (line 209), the file is skipped and not
counted; `opened p` — the file opened, with `p = none` when
`serde_json::from_reader` failed and `unwrap_or_default()` substituted the
empty map (line 211).  An opened file always increments `file_count`. -/
inductive DirEntry
  | openFail
  | opened (parsed : Option (List (String × Nat)))

def DirEntry.isOpened : DirEntry → Bool
  | openFail => false
  | opened _ => true

/-- Models `result.entry(k).or_default().push(v)` on a `BTreeMap` kept as a
key-ascending association list. -/
def btreePush : List (String × List Nat) → String → Nat → List (String × List Nat)
  | [], k, d => [(k, [d])]
  | (k', vs) :: rest, k, d =>
      if k = k' then (k', vs ++ [d]) :: rest
      else if k < k' then (k, [d]) :: (k', vs) :: rest
      else (k', vs) :: btreePush rest k d

/-- Push every (label, duration) pair of one parsed file, in file order. -/
def btreePushAll (m : List (String × List Nat)) :
    List (String × Nat) → List (String × List Nat)
  | [] => m
  | (k, d) :: rest => btreePushAll (btreePush m k d) rest

/-- The directory fold of main.rs lines 204–218, building the
label → durations map and `file_count`. -/
def collectFold (acc : List (String × List Nat) × Nat) :
    List DirEntry → List (String × List Nat) × Nat
  | [] => acc
  | DirEntry.openFail :: rest => collectFold acc rest
  | DirEntry.opened p :: rest =>
      collectFold (btreePushAll acc.1 (p.getD []), acc.2 + 1) rest

def collectResult (entries : List DirEntry) : List (String × List Nat) :=
  (collectFold ([], 0) entries).1

def collectFileCount (entries : List DirEntry) : Nat :=
  (collectFold ([], 0) entries).2

/-- The sum bars of main.rs lines 219–225, as (label, value) pairs in emission
order (the bar positions `i` are presentation only). -/
def collectSumPairs (entries : List DirEntry) : List (String × ℚ) :=
  (collectResult entries).map (fun kv => (kv.1, sumSecs kv.2))

/-- The average bars of main.rs lines 226–236: per label, sum divided by
`file_count`. -/
def collectAvgPairs (entries : List DirEntry) : List (String × ℚ) :=
  (collectResult entries).map
    (fun kv => (kv.1, sumSecs kv.2 / (collectFileCount entries : ℚ)))

/-- The per-label median value of main.rs lines 243–254: branches on the
parity of `file_count` (not of `v.len()`), and indexes the unsorted `v`. -/
def mainMedianVal (fileCount : Nat) (v : List Nat) : ℚ :=
  if fileCount % 2 = 0 then
    if 1 ≤ v.length / 2 then
      durSecs (v.getD (v.length / 2 - 1) 0 + v.getD (v.length / 2) 0) / 2
    else 0
  else if v.isEmpty = false then
    durSecs (v.getD (v.length / 2) 0)
  else 0

/-- The median bars of main.rs lines 237–258, as (label, value) pairs. -/
def collectMedianPairs (entries : List DirEntry) : List (String × ℚ) :=
  (collectResult entries).map
    (fun kv => (kv.1, mainMedianVal (collectFileCount entries) kv.2))

theorem medianSortedChecked_eq (s : List Nat) :
    medianSortedChecked s = some (medianSorted s) := by
  unfold medianSortedChecked medianSorted
  split
  · split
    · rename_i hmid
      have h1 : s.length / 2 - 1 < s.length := by omega
      have h2 : s.length / 2 < s.length := by omega
      rw [List.getElem?_eq_getElem h1, List.getElem?_eq_getElem h2,
        List.getD_eq_getElem?_getD, List.getD_eq_getElem?_getD,
        List.getElem?_eq_getElem h1, List.getElem?_eq_getElem h2]
      rfl
    · rfl
  · split
    · rename_i hne
      have h0 : 0 < s.length := by
        cases s
        · simp at hne
        · simp
      have h2 : s.length / 2 < s.length := by omega
      rw [List.getElem?_eq_getElem h2, List.getD_eq_getElem?_getD,
        List.getElem?_eq_getElem h2]
      rfl
    · rfl

/-- C9: `calculate_median` is total — every vector index it performs is in
bounds, so the index-checked variant (which returns `none` exactly when a
Rust `v[i]` would panic) always succeeds and agrees with it; likewise for the
per-label median on every duration list. -/
theorem calculate_median_total (data : List (String × List Nat)) :
    calculate_medianChecked data = some (calculate_median data)
    ∧ ∀ v : List Nat, medianChecked v = some (medianOf v) := by
  constructor
  · unfold calculate_medianChecked calculate_median
    have h : data.mapM (fun kv => (medianChecked kv.2).map (fun m => (kv.1, m)))
        = some (data.map (fun kv => (kv.1, medianOf kv.2))) := by
      induction data with
      | nil => rfl
      | cons kv rest ih =>
          rw [List.mapM_cons, ih]
          simp [medianChecked, medianSortedChecked_eq, medianOf]
    rw [h]
    rfl
  · intro v
    exact medianSortedChecked_eq _

/-- C2 (divergence of main.rs from the claimed median): with two successfully
parsed snapshot files, `{"a": 3 s}` and `{}`, the label `"a"` has the single
recorded duration 3 s, so the claimed median (and the value `calculate_median`
of utils.rs computes) is `3.0`; but `collect_previous_data` (main.rs lines
237–258) branches on the parity of `file_count` (= 2) instead of the length of
the duration list (= 1) and emits `0.0` for `"a"`. -/
theorem startup_median_diverges_from_claim :
    collectMedianPairs
        [DirEntry.opened (some [("a", 3000000000)]), DirEntry.opened (some [])] =
      [("a", 0)]
    ∧ medianOf [3000000000] = 3
    ∧ calculate_median [("a", [3000000000])] = [("a", 3)] := by
  refine ⟨rfl, ?_, ?_⟩
  · unfold medianOf sortDur
    rw [List.mergeSort_singleton]
    unfold medianSorted
    norm_num [durSecs]
  · unfold calculate_median sortDescByVal
    rw [List.map_singleton, List.mergeSort_singleton]
    unfold medianOf sortDur
    rw [List.mergeSort_singleton]
    unfold medianSorted
    norm_num [durSecs]

theorem collectFold_count (entries : List DirEntry)
    (acc : List (String × List Nat) × Nat) :
    (collectFold acc entries).2 = acc.2 + entries.countP DirEntry.isOpened := by
  induction entries generalizing acc with
  | nil => simp [collectFold]
  | cons e rest ih =>
      cases e with
      | openFail =>
          simp [collectFold, List.countP_cons, DirEntry.isOpened, ih]
      | opened p =>
          simp only [collectFold, List.countP_cons, DirEntry.isOpened, ih]
          simp
          omega

/-- C4: in the startup pass, the average of a label equals the sum of its
recorded durations divided by the number of files that were opened — an
opened file is counted whether or not it parsed and whether or not it
contains the label, while a file that failed to open is not counted. -/
theorem collect_avg_divisor (entries : List DirEntry) :
    collectFileCount entries = entries.countP DirEntry.isOpened
    ∧ (∀ p, collectFileCount (DirEntry.opened p :: entries) =
        collectFileCount entries + 1)
    ∧ collectFileCount (DirEntry.openFail :: entries) = collectFileCount entries
    ∧ collectAvgPairs entries =
        (collectResult entries).map
          (fun kv =>
            (kv.1, sumSecs kv.2 / (entries.countP DirEntry.isOpened : ℚ))) := by
  have hc : ∀ es : List DirEntry,
      collectFileCount es = es.countP DirEntry.isOpened := by
    intro es
    unfold collectFileCount
    rw [collectFold_count]
    simp
  refine ⟨hc entries, ?_, ?_, ?_⟩
  · intro p
    rw [hc, hc, List.countP_cons]
    simp [DirEntry.isOpened]
  · rw [hc, hc, List.countP_cons]
    simp [DirEntry.isOpened]
  · unfold collectAvgPairs
    rw [hc]

theorem sortDescByVal_sorted (l : List (String × ℚ)) :
    List.Sorted (fun a b : String × ℚ => b.2 ≤ a.2) (sortDescByVal l) := by
  have h := @List.sorted_mergeSort (String × ℚ) (fun a b => decide (b.2 ≤ a.2))
    (fun a b c h1 h2 => by
      simp only [decide_eq_true_eq] at h1 h2 ⊢
      exact le_trans h2 h1)
    (fun a b => by
      simp only [Bool.or_eq_true, decide_eq_true_eq]
      exact le_total b.2 a.2)
    l
  unfold sortDescByVal
  simpa using h

theorem btreePush_key_mem (m : List (String × List Nat)) (k : String) (d : Nat) :
    ∀ x ∈ btreePush m k d, x.1 = k ∨ ∃ y ∈ m, x.1 = y.1 := by
  induction m with
  | nil =>
      intro x hx
      simp [btreePush] at hx
      simp [hx]
  | cons kv rest ih =>
      obtain ⟨k', vs⟩ := kv
      intro x hx
      unfold btreePush at hx
      by_cases h1 : k = k'
      · rw [if_pos h1] at hx
        rcases List.mem_cons.mp hx with h | h
        · exact Or.inr ⟨(k', vs), by simp, by simp [h]⟩
        · exact Or.inr ⟨x, by simp [h], rfl⟩
      · rw [if_neg h1] at hx
        by_cases h2 : k < k'
        · rw [if_pos h2] at hx
          rcases List.mem_cons.mp hx with h | h
          · exact Or.inl (by simp [h])
          · exact Or.inr ⟨x, by simp [h], rfl⟩
        · rw [if_neg h2] at hx
          rcases List.mem_cons.mp hx with h | h
          · exact Or.inr ⟨(k', vs), by simp, by simp [h]⟩
          · rcases ih x h with h3 | ⟨y, hy, h3⟩
            · exact Or.inl h3
            · exact Or.inr ⟨y, by simp [hy], h3⟩

theorem btreePush_pairwise (m : List (String × List Nat)) (k : String) (d : Nat)
    (h : m.Pairwise (fun a b => a.1 < b.1)) :
    (btreePush m k d).Pairwise (fun a b => a.1 < b.1) := by
  induction m with
  | nil => simp [btreePush]
  | cons kv rest ih =>
      obtain ⟨k', vs⟩ := kv
      rw [List.pairwise_cons] at h
      obtain ⟨hhead, hrest⟩ := h
      unfold btreePush
      by_cases h1 : k = k'
      · rw [if_pos h1]
        exact List.pairwise_cons.mpr ⟨hhead, hrest⟩
      · rw [if_neg h1]
        by_cases h2 : k < k'
        · rw [if_pos h2]
          refine List.pairwise_cons.mpr ⟨?_, List.pairwise_cons.mpr ⟨hhead, hrest⟩⟩
          intro b hb
          rcases List.mem_cons.mp hb with h3 | h3
          · simpa [h3] using h2
          · exact lt_trans h2 (hhead b h3)
        · rw [if_neg h2]
          have hk : k' < k := lt_of_le_of_ne (le_of_not_lt h2) (Ne.symm h1)
          refine List.pairwise_cons.mpr ⟨?_, ih hrest⟩
          intro b hb
          rcases btreePush_key_mem rest k d b hb with h3 | ⟨y, hy, h3⟩
          · simpa [h3] using hk
          · rw [show (k', vs).1 = k' from rfl, h3]
            exact hhead y hy

theorem btreePushAll_pairwise (pairs : List (String × Nat))
    (m : List (String × List Nat))
    (h : m.Pairwise (fun a b => a.1 < b.1)) :
    (btreePushAll m pairs).Pairwise (fun a b => a.1 < b.1) := by
  induction pairs generalizing m with
  | nil => exact h
  | cons kd rest ih =>
      obtain ⟨k, d⟩ := kd
      exact ih _ (btreePush_pairwise m k d h)

theorem collectResult_pairwise (entries : List DirEntry) :
    (collectResult entries).Pairwise (fun a b => a.1 < b.1) := by
  unfold collectResult
  suffices h : ∀ acc : List (String × List Nat) × Nat,
      acc.1.Pairwise (fun a b => a.1 < b.1) →
      (collectFold acc entries).1.Pairwise (fun a b => a.1 < b.1) from
    h ([], 0) (by simp)
  induction entries with
  | nil => intro acc hacc; exact hacc
  | cons e rest ih =>
      intro acc hacc
      cases e with
      | openFail => exact ih acc hacc
      | opened p => exact ih _ (btreePushAll_pairwise _ _ hacc)

/-- C3 counterexample: one parsed snapshot file `{"a": 1 s, "b": 2 s}` makes
`collect_previous_data` emit its sum bars in `BTreeMap` key order
`[("a", 1.0), ("b", 2.0)]`, which is not descending by value. -/
theorem collect_bars_not_descending :
    ¬ List.Sorted (fun a b : String × ℚ => b.2 ≤ a.2)
        (collectSumPairs
          [DirEntry.opened (some [("a", 1000000000), ("b", 2000000000)])]) := by
  intro h
  have heval : collectSumPairs
      [DirEntry.opened (some [("a", 1000000000), ("b", 2000000000)])] =
      [("a", (1000000000 : ℚ) / 1000000000),
       ("b", (2000000000 : ℚ) / 1000000000)] := by
    have hab : ¬ ("b" : String) = "a" := by decide
    have hab2 : ¬ ("b" : String) < "a" := by
      simp [String.lt_iff_toList_lt]
      decide
    simp [collectSumPairs, collectResult, collectFold, btreePushAll, btreePush,
      sumSecs, durSecs, hab, hab2]
  rw [heval] at h
  have h2 := (List.sorted_cons.mp h).1 ("b", (2000000000 : ℚ) / 1000000000)
    (by simp)
  norm_num at h2

/-- C3 (amended): `calculate_sum`, `calculate_avg` and `calculate_median`
produce their (label, value) pairs in descending order of the statistic
value, while the startup pass `collect_previous_data` emits its bars in
strictly ascending label order (`BTreeMap` iteration order), not sorted by
value. -/
theorem aggregation_output_ordering (data : List (String × List Nat))
    (fileCount : Nat) (entries : List DirEntry) :
    List.Sorted (fun a b : String × ℚ => b.2 ≤ a.2) (calculate_sum data)
    ∧ List.Sorted (fun a b : String × ℚ => b.2 ≤ a.2)
        (calculate_avg data fileCount)
    ∧ List.Sorted (fun a b : String × ℚ => b.2 ≤ a.2) (calculate_median data)
    ∧ List.Pairwise (fun a b : String × ℚ => a.1 < b.1)
        (collectSumPairs entries)
    ∧ List.Pairwise (fun a b : String × ℚ => a.1 < b.1)
        (collectAvgPairs entries)
    ∧ List.Pairwise (fun a b : String × ℚ => a.1 < b.1)
        (collectMedianPairs entries) := by
  refine ⟨sortDescByVal_sorted _, sortDescByVal_sorted _, sortDescByVal_sorted _,
    ?_, ?_, ?_⟩
  · exact List.Pairwise.map _ (fun a b hab => hab) (collectResult_pairwise entries)
  · exact List.Pairwise.map _ (fun a b hab => hab) (collectResult_pairwise entries)
  · exact List.Pairwise.map _ (fun a b hab => hab) (collectResult_pairwise entries)

/-! ## Persistence (C5, C6, C10)

The periodic flush (main.rs lines 133–153) writes the snapshot with
`serde_json::to_writer`; the startup load (lines 45–59) reads it back with
`serde_json::from_reader`.  serde represents a `Duration` as the JSON object
`\x7b "secs": u64, "nanos": u32 \x7d` and the snapshot as an object keyed by
label. -/

inductive Json
  | num (n : Nat)
  | obj (fields : List (String × Json))

/-- serde_json encoding of a `Duration` (nanosecond count split into whole
seconds and the nanosecond remainder). -/
def encodeDuration (d : Nat) : Json :=
  .obj [("secs", .num (d / 1000000000)), ("nanos", .num (d % 1000000000))]

/-- serde_json decoding of a `Duration`. -/
def decodeDuration : Json → Option Nat
  | .obj [("secs", .num s), ("nanos", .num n)] => some (s * 1000000000 + n)
  | _ => none

/-- serde_json encoding of the `HashMap<String, Duration>` snapshot. -/
def encodeSnapshot (m : List (String × Nat)) : Json :=
  .obj (m.map (fun kv => (kv.1, encodeDuration kv.2)))

/-- serde_json decoding of a snapshot: every field must decode as a
`Duration`. -/
def decodeSnapshot : Json → Option (List (String × Nat))
  | .obj fields =>
      fields.mapM (fun kv => (decodeDuration kv.2).map (fun d => (kv.1, d)))
  | _ => none

theorem decodeDuration_encodeDuration (d : Nat) :
    decodeDuration (encodeDuration d) = some d := by
  simp [encodeDuration, decodeDuration]
  omega

/-- C5: persisting an ActivitySnapshot the way the periodic flush serializes
it and reloading it the way the startup load deserializes it yields the very
same mapping of labels to (non-negative, nanosecond-counted) durations. -/
theorem snapshot_round_trip (m : List (String × Nat)) :
    decodeSnapshot (encodeSnapshot m) = some m := by
  have h : ∀ l : List (String × Nat),
      (l.map (fun kv => (kv.1, encodeDuration kv.2))).mapM
          (fun kv => (decodeDuration kv.2).map (fun d => (kv.1, d))) = some l := by
    intro l
    induction l with
    | nil => rfl
    | cons kv rest ih =>
        rw [List.map_cons, List.mapM_cons, ih]
        simp [decodeDuration_encodeDuration]
  simp only [encodeSnapshot, decodeSnapshot]
  exact h m

/-! ### Flush failure policy (C6) -/

inductive PanicReason
  /-- the panic of `unwrap_or_else(|_| panic!("... file not possible to
  create"))` on `File::create` in `Drop for TimeBack` (main.rs line 300). -/
  | createFile
  /-- the panic of `.unwrap()` on `serde_json::to_writer` in
  `Drop for TimeBack` (main.rs line 303). -/
  | serializeWrite

inductive FlushOutcome
  /-- control flow continues; `loggedError` records whether an error message
  was printed. -/
  | continued (loggedError : Bool)
  /-- the process aborts. -/
  | panicked (reason : PanicReason)

def FlushOutcome.isPanic : FlushOutcome → Bool
  | continued _ => false
  | panicked _ => true

/-- The periodic flush of main.rs lines 142–152: no configured output
directory → nothing written; a `File::create` error or a
`serde_json::to_writer` error → `eprintln!` and the sampler loop continues. -/
def periodicFlush (hasDir createOk writeOk : Bool) : FlushOutcome :=
  if hasDir then
    if createOk then
      if writeOk then .continued false else .continued true
    else .continued true
  else .continued false

/-- The final shutdown flush, `Drop for TimeBack` (main.rs lines 288–306): no
configured output directory → nothing written; a `File::create` failure
panics via `unwrap_or_else(panic!)`; a `serde_json::to_writer` failure panics
via `.unwrap()`. -/
def shutdownFlush (hasDir createOk writeOk : Bool) : FlushOutcome :=
  if hasDir then
    if createOk then
      if writeOk then .continued false else .panicked .serializeWrite
    else .panicked .createFile
  else .continued false

/-- C6 counterexample: during the final shutdown flush, a serialization/write
failure panics even though the destination file was created successfully
(`to_writer(...).unwrap()`, main.rs line 303), so the create-failure panic is
not the only unrecoverable abort point. -/
theorem shutdown_write_failure_also_panics :
    shutdownFlush true true false = FlushOutcome.panicked PanicReason.serializeWrite
    ∧ FlushOutcome.isPanic (shutdownFlush true true false) = true :=
  ⟨rfl, rfl⟩

/-- C6 (amended): any failure during a periodic flush is logged and the
sampler loop continues (periodic persistence failure is never fatal); the
final shutdown flush panics when the destination file cannot be created and
also when the serialization write fails — it aborts exactly when either of
those fails with an output directory configured. -/
theorem flush_failure_policy (hasDir createOk writeOk : Bool) :
    FlushOutcome.isPanic (periodicFlush hasDir createOk writeOk) = false
    ∧ shutdownFlush true false writeOk = FlushOutcome.panicked PanicReason.createFile
    ∧ FlushOutcome.isPanic (shutdownFlush hasDir createOk writeOk) =
        (hasDir && !(createOk && writeOk)) := by
  cases hasDir <;> cases createOk <;> cases writeOk <;>
    exact ⟨rfl, rfl, rfl⟩

/-! ### Startup load (C10) -/

/-- The startup load of today's snapshot file (main.rs lines 45–59): if the
file exists, open it (`openOk = false` models `File::open` returning `Err`),
then parse it (`parsed = none` models `serde_json::from_reader` failing, which
`unwrap_or(HashMap::new())` replaces with the empty map); a missing file also
yields the empty map. -/
def loadTodaySnapshot (fileExists openOk : Bool)
    (parsed : Option (List (String × Nat))) : List (String × Nat) :=
  if fileExists then
    if openOk then parsed.getD [] else []
  else []

/-- C10: when today's snapshot file exists but cannot be opened, or opens but
cannot be parsed, startup proceeds with an empty ActivitySnapshot instead of
failing (and a successful parse loads exactly the parsed mapping). -/
theorem startup_load_failure_yields_empty (openOk : Bool)
    (parsed : Option (List (String × Nat))) (m : List (String × Nat)) :
    loadTodaySnapshot true false parsed = []
    ∧ loadTodaySnapshot true true none = []
    ∧ loadTodaySnapshot false openOk parsed = []
    ∧ loadTodaySnapshot true true (some m) = m :=
  ⟨rfl, rfl, rfl, rfl⟩

end TimeBack
